import Mathlib

/-!
# npc2: canonical requests, middleware chain and action dispatch

A shallow embedding of the Go packages `npc`, `middleware`, `channels/api`
and `channels/slack` and of the wiring in `main.go`, followed by theorems
about them.

Modelling conventions.

* Go strings are Lean strings; `fmt.Errorf`/`log.Printf` with `%s` verbs and
  string arguments are string concatenations.
* A Go `error` is observed through its `Error()` text: `GoError` carries that
  text, and a nil `error` is `none`.
* Middleware and handlers are Go closures and methods with pointer receivers:
  they may own mutable state.  That state is an explicit parameter `σ`, passed
  to and returned from every call.  In `Npc.ProcessRequest` the receiver is a
  value apart from that state; in `ProcessRequestAt` the receiver is read out
  of that state, so that a middleware or handler holding the `*Npc` can
  register on it during the call.
* The standard logger is an output stream: every call yields the list of log
  messages it wrote, and nothing reads them back.
* `Outcome.calls` is a ghost record of the calls `ProcessRequest` made
  (`Execute` of the i-th middleware, an action handler), in the order it made
  them and with the request each one received.
-/

set_option autoImplicit false

namespace NPC2

/-! ## Data model -/

/-- Decoded JSON document, as `encoding/json` produces it for `interface{}`
targets; a number keeps its literal text. -/
inductive JsonValue where
  | null
  | bool (b : Bool)
  | number (text : String)
  | str (s : String)
  | array (items : List JsonValue)
  | object (fields : List (String × JsonValue))
  deriving Inhabited

/-- The fields of `slackevents.MessageEvent` that the Slack adapter reads. -/
structure MessageEvent where
  User : String := ""
  Channel : String := ""
  Text : String := ""
  ChannelType : String := ""
  deriving DecidableEq, Inhabited

/-- The `RawData interface{}` slot of a request: nil, the decoded JSON body of
an API call, a Slack message event held by value, a Slack message event held by
pointer, or another Slack inner event (by type name).  The core never inspects
it. -/
inductive RawData where
  | nil
  | json (fields : List (String × JsonValue))
  | slackMessage (m : MessageEvent)
  | slackMessagePointer (m : MessageEvent)
  | slackInner (typeName : String)
  deriving Inhabited

/-- Canonical request (`npc/request.go`); every field defaults to its Go zero
value.  `Args` is a Go map, kept as an association list. -/
structure Request where
  Action : String := ""
  User : String := ""
  ChannelID : String := ""
  Text : String := ""
  Source : String := ""
  AuthMethod : String := ""
  AuthToken : String := ""
  Args : List (String × String) := []
  RawData : RawData := RawData.nil
  deriving Inhabited

/-- A non-nil Go `error`, identified by the text its `Error()` returns. -/
structure GoError where
  msg : String
  deriving DecidableEq, Inhabited

/-- Canonical response (`npc/response.go`); `Error = none` is a nil error. -/
structure Response where
  Data : String := ""
  Error : Option GoError := none
  Code : Int := 0
  deriving DecidableEq, Inhabited

/-- What one call of `Middleware.Execute(request *Request) error` leaves
behind: the returned error, the request behind the pointer, the state of the
closures, and the log messages written. -/
structure MwResult (σ : Type) where
  err : Option GoError
  request : Request
  state : σ
  logs : List String := []

/-- The `Middleware` interface of `npc/npc.go`: one method, `Execute`. -/
structure Middleware (σ : Type) where
  Execute : Request → σ → MwResult σ

/-- What one call of a `func(Request) Response` leaves behind. -/
structure HandlerResult (σ : Type) where
  response : Response
  state : σ
  logs : List String := []

/-- The Go type `func(Request) Response`. -/
abbrev HandlerFunc (σ : Type) := Request → σ → HandlerResult σ

/-- The struct `Action` of `npc/npc.go`. -/
structure Action (σ : Type) where
  Name : String
  Description : String := ""
  Handler : HandlerFunc σ

/-- The struct `Npc` of `npc/npc.go`; the Go `map[string]Action` is the
partial function from keys to entries. -/
structure Npc (σ : Type) where
  actions : String → Option (Action σ)
  middleware : List (Middleware σ)

/-- One entry of the ghost call record. -/
inductive Call where
  | step (index : Nat) (request : Request)
  | handler (name : String) (request : Request)

/-- Whether a recorded call is a call of an action handler. -/
def Call.isHandler : Call → Bool
  | Call.step _ _ => false
  | Call.handler _ _ => true

/-- The index of a recorded middleware call. -/
def Call.stepIndex : Call → Option Nat
  | Call.step i _ => some i
  | Call.handler _ _ => none

/-! ## Package `npc` -/

variable {σ : Type}

/-- Go `NewNpc`: empty registry, empty chain. -/
def NewNpc : Npc σ :=
  { actions := fun _ => none, middleware := [] }

/-- Go `(*Npc).RegisterAction`: `n.actions[action.Name] = action`. -/
def Npc.RegisterAction (n : Npc σ) (action : Action σ) : Npc σ :=
  { n with actions := fun key => if key = action.Name then some action else n.actions key }

/-- Go `(*Npc).Use`: `n.middleware = append(n.middleware, middleware)`. -/
def Npc.Use (n : Npc σ) (m : Middleware σ) : Npc σ :=
  { n with middleware := n.middleware ++ [m] }

/-- The variables live in the middleware loop of `ProcessRequest`: the request
behind `currentRequest`, the closures' state, the log written so far and the
ghost call record. -/
structure Progress (σ : Type) where
  request : Request
  state : σ
  logs : List String
  calls : List Call

/-- The loop `for _, m := range n.middleware` of `ProcessRequest`, from the
middleware at position `index` on.  The first component is the error of the
step that made the loop return, or `none` when the loop ran to its end. -/
def runChain : List (Middleware σ) → Nat → Progress σ → Option GoError × Progress σ
  | [], _, p => (none, p)
  | m :: rest, index, p =>
    let res := m.Execute p.request p.state
    let p' : Progress σ :=
      { request := res.request, state := res.state,
        logs := p.logs ++ res.logs, calls := p.calls ++ [Call.step index p.request] }
    match res.err with
    | some err => (some err, p')
    | none => runChain rest (index + 1) p'

/-- Everything observable after one call of `ProcessRequest`: the returned
response, the closures' state, the log messages written and the ghost call
record. -/
structure Outcome (σ : Type) where
  response : Response
  state : σ
  logs : List String
  calls : List Call

/-- Go `(*Npc).ProcessRequest`. -/
def Npc.ProcessRequest (n : Npc σ) (request : Request) (state : σ) : Outcome σ :=
  match runChain n.middleware 0 { request := request, state := state, logs := [], calls := [] } with
  | (some err, p) =>
    { response := { Error := some err }, state := p.state, logs := p.logs,
      calls := p.calls }
  | (none, p) =>
    match n.actions p.request.Action with
    | some action =>
      let h := action.Handler p.request p.state
      { response := h.response, state := h.state, logs := p.logs ++ h.logs,
        calls := p.calls ++ [Call.handler p.request.Action p.request] }
    | none =>
      { response := { Error := some ⟨"action " ++ p.request.Action ++ " not found"⟩ },
        state := p.state, logs := p.logs, calls := p.calls }

/-- Go `(*Npc).ProcessRequest` with its receiver kept in the state the
callbacks work on: `deref s` is the `Npc` behind the pointer `n` when the state
is `s`.  A middleware or handler that holds `n` and calls `n.RegisterAction` or
`n.Use` is then a callback that takes a state `s` to a state `t` with
`deref t = (deref s).RegisterAction a` or `(deref s).Use m`.  The slice
`n.middleware` is read once, when the `range` loop starts; the map `n.actions`
is read at the lookup, after the loop. -/
def ProcessRequestAt (deref : σ → Npc σ) (request : Request) (state : σ) : Outcome σ :=
  match runChain (deref state).middleware 0
      { request := request, state := state, logs := [], calls := [] } with
  | (some err, p) =>
    { response := { Error := some err }, state := p.state, logs := p.logs,
      calls := p.calls }
  | (none, p) =>
    match (deref p.state).actions p.request.Action with
    | some action =>
      let h := action.Handler p.request p.state
      { response := h.response, state := h.state, logs := p.logs ++ h.logs,
        calls := p.calls ++ [Call.handler p.request.Action p.request] }
    | none =>
      { response := { Error := some ⟨"action " ++ p.request.Action ++ " not found"⟩ },
        state := p.state, logs := p.logs, calls := p.calls }

/-! ## Package `middleware` -/

/-- The struct `AuthMiddleware`. -/
structure AuthMiddleware where
  Token : String
  deriving DecidableEq

/-- Go `(*AuthMiddleware).Execute`. -/
def AuthMiddleware.Execute (m : AuthMiddleware) (request : Request) (state : σ) : MwResult σ :=
  if request.AuthMethod = "apikey" ∧ request.AuthToken = m.Token then
    { err := none, request := request, state := state }
  else
    { err := some ⟨"unauthorized"⟩, request := request, state := state }

/-- An `*AuthMiddleware` used as a `Middleware`. -/
def AuthMiddleware.toMiddleware (m : AuthMiddleware) : Middleware σ :=
  { Execute := m.Execute }

/-- The struct `AuditLogMiddleware` (no fields). -/
structure AuditLogMiddleware where
  deriving DecidableEq

/-- The message `log.Printf` formats in `AuditLogMiddleware.Execute`. -/
def auditLine (request : Request) : String :=
  "AUDIT: Action=" ++ request.Action ++ ", Source=" ++ request.Source ++ ", Text="
    ++ request.Text ++ ", User=" ++ request.User ++ ", ChannelID=" ++ request.ChannelID

/-- Go `(*AuditLogMiddleware).Execute`. -/
def AuditLogMiddleware.Execute (_m : AuditLogMiddleware) (request : Request) (state : σ) :
    MwResult σ :=
  { err := none, request := request, state := state, logs := [auditLine request] }

/-- An `*AuditLogMiddleware` used as a `Middleware`. -/
def AuditLogMiddleware.toMiddleware (m : AuditLogMiddleware) : Middleware σ :=
  { Execute := m.Execute }

/-- The method value `n.ProcessRequest`, as the adapters register it. -/
def Npc.requestHandler (n : Npc σ) : HandlerFunc σ :=
  fun request state =>
    let o := n.ProcessRequest request state
    { response := o.response, state := o.state, logs := o.logs }

/-! ## Package `channels/api` -/

/-- The parts of an `*http.Request` that `handleRequest` reads: the method,
the `Authorization` header (empty when absent) and the outcome of decoding the
body into a `map[string]interface{}` (`none` when decoding fails). -/
structure HttpRequest where
  Method : String
  Authorization : String := ""
  Body : Option (List (String × JsonValue))

/-- What `handleRequest` writes to its `http.ResponseWriter`: the status (200
unless `WriteHeader` is called), the `Content-Type` header and the value passed
to the JSON encoder. -/
structure HttpReply where
  Status : Nat
  ContentType : String
  Body : JsonValue

/-- The struct `APIChannel`; a nil `requestHandler` is `none`. -/
structure APIChannel (σ : Type) where
  port : String
  requestHandler : Option (HandlerFunc σ) := none

/-- Go `NewAPIChannel`. -/
def NewAPIChannel (port : String) : APIChannel σ :=
  { port := port }

/-- Go `(*APIChannel).RegisterRequestHandler`. -/
def APIChannel.RegisterRequestHandler (ac : APIChannel σ) (handler : HandlerFunc σ) :
    APIChannel σ :=
  { ac with requestHandler := some handler }

/-- Go `strings.HasPrefix`. -/
def HasPrefix (s pre : String) : Bool :=
  pre.data.isPrefixOf s.data

/-- Go `strings.TrimPrefix`. -/
def TrimPrefix (s pre : String) : String :=
  if HasPrefix s pre then String.mk (s.data.drop pre.data.length) else s

/-- The type assertion `requestData[key].(string)`. -/
def stringField (data : List (String × JsonValue)) (key : String) : Option String :=
  match data.lookup key with
  | some (JsonValue.str s) => some s
  | _ => none

/-- The loop of `handleRequest` that copies the string-valued entries of
`requestData["args"]` into `args`. -/
def stringArgs (data : List (String × JsonValue)) : List (String × String) :=
  match data.lookup "args" with
  | some (JsonValue.object rawArgs) =>
    rawArgs.filterMap fun kv =>
      match kv.2 with
      | JsonValue.str strVal => some (kv.1, strVal)
      | _ => none
  | _ => []

/-- The `npc.Request` that `handleRequest` constructs from the decoded body
and the `Authorization` header. -/
def newRequest (requestData : List (String × JsonValue)) (authorization : String) : Request :=
  let actionName := (stringField requestData "action").getD ""
  let user := (stringField requestData "user").getD ""
  let channelID := (stringField requestData "channel_id").getD ""
  let textPayload :=
    match stringField requestData "message" with
    | some msg => msg
    | none =>
      match stringField requestData "action" with
      | some action => action
      | none => ""
  let authToken :=
    if HasPrefix authorization "Bearer " then TrimPrefix authorization "Bearer "
    else authorization
  { Action := actionName, User := user, ChannelID := channelID, Text := textPayload,
    Source := "API", AuthMethod := "apikey", AuthToken := authToken,
    Args := stringArgs requestData, RawData := RawData.json requestData }

/-- The value `map[string]string{"error": msg}` handed to the JSON encoder. -/
def errorBody (msg : String) : JsonValue :=
  JsonValue.object [("error", JsonValue.str msg)]

/-- The part of `handleRequest` after the handler has returned. -/
def writeResponse (response : Response) : HttpReply × List String :=
  match response.Error with
  | some err =>
    ({ Status := if err.msg = "unauthorized" then 401 else 500,
       ContentType := "application/json", Body := errorBody err.msg }, [])
  | none =>
    ({ Status := 200, ContentType := "application/json", Body := JsonValue.str response.Data },
     ["API response type before encoding: string, value: " ++ response.Data])

/-- Everything observable after one call of `handleRequest`. -/
structure Handled (σ : Type) where
  reply : HttpReply
  state : σ
  logs : List String

/-- Go `(*APIChannel).handleRequest`. -/
def APIChannel.handleRequest (ac : APIChannel σ) (r : HttpRequest) (state : σ) : Handled σ :=
  if r.Method ≠ "POST" then
    { reply := { Status := 405, ContentType := "application/json",
                 Body := errorBody "Invalid request method" },
      state := state, logs := [] }
  else
    match r.Body with
    | none =>
      { reply := { Status := 400, ContentType := "application/json",
                   Body := errorBody "Invalid JSON payload" },
        state := state, logs := [] }
    | some requestData =>
      match ac.requestHandler with
      | some handler =>
        let h := handler (newRequest requestData r.Authorization) state
        let w := writeResponse h.response
        { reply := w.1, state := h.state, logs := h.logs ++ w.2 }
      | none =>
        { reply := { Status := 500, ContentType := "application/json",
                     Body := errorBody "No request handler registered" },
          state := state, logs := [] }

/-! ## Package `channels/slack` -/

/-- The value behind `EventsAPIEvent.InnerEvent.Data`: a
`slackevents.MessageEvent` held by value, as the tests build it; a
`*slackevents.MessageEvent`, the pointer that `slackevents.ParseEvent` puts
there for a message event; or a value of any other type (by type name). -/
inductive InnerEventData where
  | message (m : MessageEvent)
  | messagePointer (m : MessageEvent)
  | other (typeName : String)

/-- The inner event as it is stored in `RawData`. -/
def InnerEventData.toRawData : InnerEventData → RawData
  | InnerEventData.message m => RawData.slackMessage m
  | InnerEventData.messagePointer m => RawData.slackMessagePointer m
  | InnerEventData.other typeName => RawData.slackInner typeName

/-- The value behind `socketmode.Event.Data`: a `slackevents.EventsAPIEvent`
with its inner event, or a value of any other type. -/
inductive EventData where
  | eventsAPI (inner : InnerEventData)
  | other

/-- The struct `socketmode.Request`, the envelope of an event, by its id. -/
structure SocketRequest where
  EnvelopeID : String := ""

/-- The parts of a `socketmode.Event` that `handleEvent` uses: `Data`, and the
pointer `Request`, nil being `none`. -/
structure SocketEvent where
  Data : EventData
  Request : Option SocketRequest

/-- The struct `SlackChannel`, without its two clients; a nil `requestHandler`
is `none`. -/
structure SlackChannel (σ : Type) where
  requestHandler : Option (HandlerFunc σ) := none

/-- Go `(*SlackChannel).RegisterRequestHandler`. -/
def SlackChannel.RegisterRequestHandler (sc : SlackChannel σ) (handler : HandlerFunc σ) :
    SlackChannel σ :=
  { sc with requestHandler := some handler }

/-- Everything observable after one call of `handleEvent`: whether the event
was acknowledged, the closures' state and the log messages written. -/
structure SlackHandled (σ : Type) where
  acked : Bool
  state : σ
  logs : List String

/-- Go `(*SlackChannel).handleEvent`; the handler's response is dropped.  The
result `none` is the panic of `*evt.Request` on a nil pointer.  The type
assertion `InnerEvent.Data.(slackevents.MessageEvent)` holds for a message
event held by value only; everything else takes the `else` branch. -/
def SlackChannel.handleEvent (sc : SlackChannel σ) (evt : SocketEvent) (state : σ) :
    Option (SlackHandled σ) :=
  match evt.Data with
  | EventData.other => some { acked := false, state := state, logs := [] }
  | EventData.eventsAPI inner =>
    match evt.Request with
    | none => none
    | some _ =>
      match sc.requestHandler with
      | none => some { acked := true, state := state, logs := [] }
      | some handler =>
        match inner with
        | InnerEventData.message messageEvent =>
          let action := if messageEvent.Text = "hello" then "hello" else "unknown"
          let args :=
            if messageEvent.Text = "hello" then [("channel_type", messageEvent.ChannelType)]
            else []
          let npcRequest : Request :=
            { Action := action, User := messageEvent.User, ChannelID := messageEvent.Channel,
              Text := messageEvent.Text, Source := "Slack", AuthMethod := "slack_user",
              AuthToken := messageEvent.User, Args := args,
              RawData := RawData.slackMessage messageEvent }
          let h := handler npcRequest state
          some { acked := true, state := h.state, logs := h.logs }
        | data =>
          let npcRequest : Request :=
            { Action := "unknown", Source := "Slack", AuthMethod := "none", AuthToken := "",
              Args := [], RawData := data.toRawData }
          let h := handler npcRequest state
          some { acked := true, state := h.state, logs := h.logs }

/-! ## `main.go` -/

/-- The `helloAction` of `main`. -/
def helloAction : Action σ :=
  { Name := "hello", Description := "A simple hello action",
    Handler := fun _ state =>
      { response := { Data := "Hello, world!", Code := 200 }, state := state } }

/-- The dispatcher `npcCore` as `main` has built it once `API_TOKEN` is read:
auth middleware, then audit middleware, then the `hello` action. -/
def npcCore (apiToken : String) : Npc σ :=
  ((NewNpc.Use (AuthMiddleware.toMiddleware { Token := apiToken })).Use
    (AuditLogMiddleware.toMiddleware {})).RegisterAction helloAction

/-! ## Runs of the middleware chain -/

/-- The first `k` steps of the chain `ms` all succeed, step `i` receiving the
request `rs i` and the state `ss i` and leaving `rs (i + 1)` and `ss (i + 1)`:
each step sees what the steps before it left. -/
def Passes (ms : List (Middleware σ)) (k : Nat) (rs : Nat → Request) (ss : Nat → σ) : Prop :=
  ∀ i, i < k → ∀ m, ms[i]? = some m →
    (m.Execute (rs i) (ss i)).err = none ∧
    (m.Execute (rs i) (ss i)).request = rs (i + 1) ∧
    (m.Execute (rs i) (ss i)).state = ss (i + 1)

/-- The ghost record of the calls of steps `0 .. k - 1`, numbered from `index`. -/
def stepCalls (index k : Nat) (rs : Nat → Request) : List Call :=
  (List.range k).map fun i => Call.step (index + i) (rs i)

/-- The request and state that step `i` of the chain `ms` receives when the
steps before it have run on `r` and `s`. -/
def chainStates (ms : List (Middleware σ)) (r : Request) (s : σ) : Nat → Request × σ
  | 0 => (r, s)
  | i + 1 =>
    match ms[i]? with
    | some m =>
      ((m.Execute (chainStates ms r s i).1 (chainStates ms r s i).2).request,
       (m.Execute (chainStates ms r s i).1 (chainStates ms r s i).2).state)
    | none => chainStates ms r s i

/-- The request and the state that the chain of `n` hands to dispatch, when no
step fails; `none` when a step fails. -/
def Npc.dispatched (n : Npc σ) (r : Request) (s : σ) : Option (Request × σ) :=
  match runChain n.middleware 0 { request := r, state := s, logs := [], calls := [] } with
  | (none, p) => some (p.request, p.state)
  | (some _, _) => none

/-! ## Fixtures of the test files -/

/-- The `MockMiddleware` of `npc_test.go`; the state is its `executed` flag. -/
def MockMiddleware : Middleware Bool :=
  { Execute := fun request _ => { err := none, request := request, state := true } }

/-- The action `test` of `npc_test.go`. -/
def testAction : Action Bool :=
  { Name := "test",
    Handler := fun _ state => { response := { Data := "test" }, state := state } }

/-- The dispatcher of `TestProcessRequest`: action `test`, then `MockMiddleware`. -/
def testNpc : Npc Bool :=
  (NewNpc.RegisterAction testAction).Use MockMiddleware

/-- A dispatcher with a spy after the auth step: `AuthMiddleware{Token: "secret"}`,
then `MockMiddleware`, and the `hello` action. -/
def spyNpc : Npc Bool :=
  ((NewNpc.Use (AuthMiddleware.toMiddleware { Token := "secret" })).Use
    MockMiddleware).RegisterAction helloAction

/-- A `hello` request that presents the token `wrong`. -/
def wrongTokenRequest : Request :=
  { Action := "hello", AuthMethod := "apikey", AuthToken := "wrong" }

/-- The dispatcher of `TestIntegration`, with `secret` for the token:
`AuthMiddleware{Token: "secret"}` and the `hello` action. -/
def authNpc : Npc Unit :=
  (NewNpc.Use (AuthMiddleware.toMiddleware { Token := "secret" })).RegisterAction helloAction

/-- A `hello` request that presents the token `secret`. -/
def secretTokenRequest : Request :=
  { Action := "hello", AuthMethod := "apikey", AuthToken := "secret" }

/-- An action `hello` whose handler answers `first`. -/
def firstHello : Action Unit :=
  { Name := "hello",
    Handler := fun _ state => { response := { Data := "first" }, state := state } }

/-- A middleware that rewrites the `Action` of the request to `hello`. -/
def renameToHello : Middleware Unit :=
  { Execute := fun request state =>
      { err := none, request := { request with Action := "hello" }, state := state } }

/-- The API channel of `TestIntegration`, wired to `authNpc`. -/
def integrationChannel : APIChannel Unit :=
  (NewAPIChannel ":8080").RegisterRequestHandler authNpc.requestHandler

/-- A POST of `{"action": "hello"}` with the header `Authorization: Bearer wrong-token`. -/
def wrongTokenPost : HttpRequest :=
  { Method := "POST", Authorization := "Bearer wrong-token",
    Body := some [("action", JsonValue.str "hello")] }

/-- The mock request handler of the adapter tests: it keeps every request it
is called with, in order, and answers `{Data: "ok", Code: 200}`. -/
def recordingHandler : HandlerFunc (List Request) :=
  fun request seen => { response := { Data := "ok", Code := 200 }, state := seen ++ [request] }

/-- A POST of `{"action": "missing"}` with the header `Authorization: Bearer secret`. -/
def missingActionPost : HttpRequest :=
  { Method := "POST", Authorization := "Bearer secret",
    Body := some [("action", JsonValue.str "missing")] }

/-- The request of `TestAuditLogMiddleware`. -/
def auditTestRequest : Request :=
  { Action := "test_action", Source := "test_source", Text := "test_text",
    User := "test_user", ChannelID := "test_channel" }

/-- An action `extra`, registered by a handler during a call. -/
def extraAction : Action Bool :=
  { Name := "extra",
    Handler := fun _ state => { response := { Data := "extra" }, state := state } }

/-- An action `hello` whose handler holds the `*Npc` and calls
`RegisterAction(extraAction)` on it; the state is the flag that says whether
`extra` has been registered. -/
def registeringHello : Action Bool :=
  { Name := "hello",
    Handler := fun _ _ =>
      { response := { Data := "Hello, world!", Code := 200 }, state := true } }

/-- The dispatcher behind the pointer that `registeringHello` holds: `NewNpc`
with `registeringHello`, and with `extraAction` too once the flag is set. -/
def selfRegisteringNpc (registered : Bool) : Npc Bool :=
  if registered then (NewNpc.RegisterAction registeringHello).RegisterAction extraAction
  else NewNpc.RegisterAction registeringHello

/-- A dispatcher kept in a state that its callbacks leave alone: the auth step
with the token `secret` and the `hello` action of `main`, and `extraAction` too
when the flag is set. -/
def heldNpc (registered : Bool) : Npc Bool :=
  if registered then
    ((NewNpc.Use (AuthMiddleware.toMiddleware { Token := "secret" })).RegisterAction
      helloAction).RegisterAction extraAction
  else (NewNpc.Use (AuthMiddleware.toMiddleware { Token := "secret" })).RegisterAction helloAction

/-- The message event of `TestSlackChannel`. -/
def helloMessage : MessageEvent :=
  { Text := "hello", User := "U12345", Channel := "C12345", ChannelType := "channel" }

/-- The event of `TestSlackChannel`: the message event held by value. -/
def helloValueEvent : SocketEvent :=
  { Data := EventData.eventsAPI (InnerEventData.message helloMessage), Request := some {} }

/-- The same event with the message event held by pointer, as
`slackevents.ParseEvent` delivers it. -/
def helloPointerEvent : SocketEvent :=
  { Data := EventData.eventsAPI (InnerEventData.messagePointer helloMessage),
    Request := some {} }

/-- The event of `TestSlackChannel` with a nil `Request`. -/
def helloNilRequestEvent : SocketEvent :=
  { Data := EventData.eventsAPI (InnerEventData.message helloMessage), Request := none }

theorem stepCalls_succ (index k : Nat) (rs : Nat → Request) :
    stepCalls index (k + 1) rs = stepCalls index k rs ++ [Call.step (index + k) (rs k)] := by
  simp [stepCalls, List.range_succ]

theorem stepCalls_not_handler (index k : Nat) (rs : Nat → Request) :
    ∀ c ∈ stepCalls index k rs, c.isHandler = false := by
  intro c hc
  simp only [stepCalls, List.mem_map] at hc
  obtain ⟨i, _, rfl⟩ := hc
  rfl

/-- After `k` passing steps the loop stands at step `k` with the request and
state the `k`-th step is to receive. -/
theorem runChain_passes (ms : List (Middleware σ)) (rs : Nat → Request) (ss : Nat → σ)
    (index : Nat) (p : Progress σ) (hr : p.request = rs 0) (hs : p.state = ss 0) :
    ∀ k, k ≤ ms.length → Passes ms k rs ss →
      ∃ logs, runChain ms index p =
        runChain (ms.drop k) (index + k)
          { request := rs k, state := ss k, logs := logs,
            calls := p.calls ++ stepCalls index k rs } := by
  intro k
  induction k with
  | zero =>
    intro _ _
    refine ⟨p.logs, ?_⟩
    cases p
    simp_all [stepCalls]
  | succ k ih =>
    intro hk hpass
    have hlt : k < ms.length := hk
    obtain ⟨logs, hrun⟩ := ih (Nat.le_of_lt hlt) (fun i hi m hm => hpass i (Nat.lt_succ_of_lt hi) m hm)
    obtain ⟨herr, hreq, hst⟩ := hpass k (Nat.lt_succ_self k) ms[k] (List.getElem?_eq_getElem hlt)
    refine ⟨logs ++ (ms[k].Execute (rs k) (ss k)).logs, ?_⟩
    rw [hrun, List.drop_eq_getElem_cons hlt]
    simp only [runChain, herr, hreq, hst, stepCalls_succ, List.append_assoc, Nat.add_assoc]

/-- Every run of a chain is of one of two kinds: some step is the first to
fail, the steps before it passing, or all steps pass. -/
theorem chain_run_cases (ms : List (Middleware σ)) (r : Request) (s : σ) :
    (∃ k mk e,
      Passes ms k (fun i => (chainStates ms r s i).1) (fun i => (chainStates ms r s i).2) ∧
      ms[k]? = some mk ∧
      (mk.Execute (chainStates ms r s k).1 (chainStates ms r s k).2).err = some e) ∨
    Passes ms ms.length (fun i => (chainStates ms r s i).1) (fun i => (chainStates ms r s i).2) := by
  classical
  by_cases h : ∃ k, ∃ mk : Middleware σ, ms[k]? = some mk ∧
      (mk.Execute (chainStates ms r s k).1 (chainStates ms r s k).2).err ≠ none
  · left
    obtain ⟨mk, hmk, herr⟩ := Nat.find_spec h
    obtain ⟨e, he⟩ := Option.ne_none_iff_exists'.mp herr
    refine ⟨Nat.find h, mk, e, ?_, hmk, he⟩
    intro i hi m hm
    have hmin := Nat.find_min h hi
    refine ⟨?_, ?_, ?_⟩
    · by_contra hne
      exact hmin ⟨m, hm, hne⟩
    · simp [chainStates, hm]
    · simp [chainStates, hm]
  · right
    intro i _ m hm
    refine ⟨?_, ?_, ?_⟩
    · by_contra hne
      exact h ⟨i, m, hm, hne⟩
    · simp [chainStates, hm]
    · simp [chainStates, hm]

/-- C1: if the steps before position `k` succeed and step `k` returns the error
`e`, then `ProcessRequest` calls exactly the steps `0 .. k` in order, calls no
later step and no action handler, and returns `Response{Error: e}`, with `Data`
and `Code` at their zero values. -/
theorem ProcessRequest_stops_at_first_failure (n : Npc σ) (r : Request) (s : σ)
    (k : Nat) (rs : Nat → Request) (ss : Nat → σ) (h0r : rs 0 = r) (h0s : ss 0 = s)
    (hpass : Passes n.middleware k rs ss)
    (mk : Middleware σ) (hmk : n.middleware[k]? = some mk)
    (e : GoError) (hfail : (mk.Execute (rs k) (ss k)).err = some e) :
    (n.ProcessRequest r s).response = { Data := "", Error := some e, Code := 0 } ∧
    (n.ProcessRequest r s).calls = (List.range (k + 1)).map (fun i => Call.step i (rs i)) ∧
    (∀ c ∈ (n.ProcessRequest r s).calls, c.isHandler = false) ∧
    (n.ProcessRequest r s).state = (mk.Execute (rs k) (ss k)).state := by
  obtain ⟨hlt, hget⟩ := List.getElem?_eq_some_iff.mp hmk
  obtain ⟨logs, hrun⟩ := runChain_passes n.middleware rs ss 0
    { request := r, state := s, logs := [], calls := [] } h0r.symm h0s.symm k
    (Nat.le_of_lt hlt) hpass
  have hcalls : (n.ProcessRequest r s).calls = stepCalls 0 (k + 1) rs := by
    simp only [Npc.ProcessRequest, hrun, List.drop_eq_getElem_cons hlt, hget, runChain, hfail,
      stepCalls_succ, List.nil_append]
  refine ⟨?_, ?_, ?_, ?_⟩
  · simp only [Npc.ProcessRequest, hrun, List.drop_eq_getElem_cons hlt, hget, runChain, hfail]
  · simpa [stepCalls] using hcalls
  · rw [hcalls]
    exact stepCalls_not_handler 0 (k + 1) rs
  · simp only [Npc.ProcessRequest, hrun, List.drop_eq_getElem_cons hlt, hget, runChain, hfail]

theorem ProcessRequest_stops_at_first_failure_witness :
    ((AuthMiddleware.toMiddleware { Token := "secret" }).Execute wrongTokenRequest false).err
        = some ⟨"unauthorized"⟩ ∧
      (spyNpc.ProcessRequest wrongTokenRequest false).response
        = { Data := "", Error := some ⟨"unauthorized"⟩, Code := 0 } ∧
      (spyNpc.ProcessRequest wrongTokenRequest false).calls = [Call.step 0 wrongTokenRequest] ∧
      (spyNpc.ProcessRequest wrongTokenRequest false).state = false :=
  have h := ProcessRequest_stops_at_first_failure spyNpc wrongTokenRequest false 0
    (fun _ => wrongTokenRequest) (fun _ => false) rfl rfl (fun i hi => absurd hi (Nat.not_lt_zero i))
    (AuthMiddleware.toMiddleware { Token := "secret" }) rfl ⟨"unauthorized"⟩ (by decide)
  ⟨by decide, h.1, h.2.1, h.2.2.2⟩

/-- C2: if every step of the chain succeeds, step `i` receiving the request
`rs i` left by the steps before it, then `ProcessRequest` calls each step once,
in registration order, looks up the `Action` of the request the last step left,
and, that name being registered, calls its handler once with that request and
returns the handler's response unchanged. -/
theorem ProcessRequest_dispatches_after_chain (n : Npc σ) (r : Request) (s : σ)
    (rs : Nat → Request) (ss : Nat → σ) (h0r : rs 0 = r) (h0s : ss 0 = s)
    (hpass : Passes n.middleware n.middleware.length rs ss)
    (a : Action σ) (ha : n.actions (rs n.middleware.length).Action = some a) :
    (n.ProcessRequest r s).response
      = (a.Handler (rs n.middleware.length) (ss n.middleware.length)).response ∧
    (n.ProcessRequest r s).state
      = (a.Handler (rs n.middleware.length) (ss n.middleware.length)).state ∧
    (n.ProcessRequest r s).calls
      = (List.range n.middleware.length).map (fun i => Call.step i (rs i))
        ++ [Call.handler (rs n.middleware.length).Action (rs n.middleware.length)] := by
  obtain ⟨logs, hrun⟩ := runChain_passes n.middleware rs ss 0
    { request := r, state := s, logs := [], calls := [] } h0r.symm h0s.symm n.middleware.length
    (Nat.le_refl _) hpass
  refine ⟨?_, ?_, ?_⟩ <;>
    simp [Npc.ProcessRequest, hrun, runChain, ha, stepCalls]

theorem ProcessRequest_dispatches_after_chain_witness :
    testNpc.actions "test" = some testAction ∧
      (testNpc.ProcessRequest { Action := "test" } false).response
        = { Data := "test", Error := none, Code := 0 } ∧
      (testNpc.ProcessRequest { Action := "test" } false).state = true ∧
      (testNpc.ProcessRequest { Action := "test" } false).calls
        = [Call.step 0 { Action := "test" }, Call.handler "test" { Action := "test" }] :=
  have h := ProcessRequest_dispatches_after_chain testNpc { Action := "test" } false
    (fun _ => { Action := "test" }) (fun i => decide (0 < i)) rfl rfl
    (by
      intro i hi m hm
      have hi0 : i = 0 := Nat.lt_one_iff.mp hi
      subst hi0
      cases hm
      exact ⟨rfl, rfl, rfl⟩)
    testAction rfl
  ⟨rfl, h.1, h.2.1, h.2.2⟩

/-- C3: if every step of the chain succeeds and the `Action` `X` of the request
the last step left is not a key of the registry, then `ProcessRequest` returns a
response whose error is non-nil with the message `action X not found` (which
contains `X`), whose `Data` is empty and whose `Code` is 0, and it calls no
handler. -/
theorem ProcessRequest_unknown_action (n : Npc σ) (r : Request) (s : σ)
    (rs : Nat → Request) (ss : Nat → σ) (h0r : rs 0 = r) (h0s : ss 0 = s)
    (hpass : Passes n.middleware n.middleware.length rs ss)
    (hnone : n.actions (rs n.middleware.length).Action = none) :
    (n.ProcessRequest r s).response
      = { Data := "",
          Error := some ⟨"action " ++ (rs n.middleware.length).Action ++ " not found"⟩,
          Code := 0 } ∧
    (n.ProcessRequest r s).response.Error ≠ none ∧
    (∃ e front back, (n.ProcessRequest r s).response.Error = some e ∧
      e.msg = front ++ (rs n.middleware.length).Action ++ back) ∧
    (∀ c ∈ (n.ProcessRequest r s).calls, c.isHandler = false) := by
  obtain ⟨logs, hrun⟩ := runChain_passes n.middleware rs ss 0
    { request := r, state := s, logs := [], calls := [] } h0r.symm h0s.symm n.middleware.length
    (Nat.le_refl _) hpass
  have hresp : (n.ProcessRequest r s).response
      = { Data := "",
          Error := some ⟨"action " ++ (rs n.middleware.length).Action ++ " not found"⟩,
          Code := 0 } := by
    simp [Npc.ProcessRequest, hrun, runChain, hnone]
  have hcalls : (n.ProcessRequest r s).calls = stepCalls 0 n.middleware.length rs := by
    simp [Npc.ProcessRequest, hrun, runChain, hnone]
  refine ⟨hresp, ?_, ?_, ?_⟩
  · rw [hresp]
    simp
  · exact ⟨_, "action ", " not found", by rw [hresp], rfl⟩
  · rw [hcalls]
    exact stepCalls_not_handler 0 _ rs

theorem ProcessRequest_unknown_action_witness :
    (NewNpc : Npc Unit).actions "missing" = none ∧
      ((NewNpc : Npc Unit).ProcessRequest { Action := "missing" } ()).response
        = { Data := "", Error := some ⟨"action missing not found"⟩, Code := 0 } :=
  have h := ProcessRequest_unknown_action (NewNpc : Npc Unit) { Action := "missing" } ()
    (fun _ => { Action := "missing" }) (fun _ => ()) rfl rfl
    (fun i hi => absurd hi (Nat.not_lt_zero i)) rfl
  ⟨rfl, h.1⟩

/-- C4: `AuthMiddleware.Execute` returns no error exactly when the request's
`AuthMethod` is `apikey` and its `AuthToken` equals the configured `Token`; in
every other case the error's message is `unauthorized`; the request is left as
it was. -/
theorem AuthMiddleware_Execute_iff (m : AuthMiddleware) (r : Request) (s : σ) :
    ((m.Execute r s).err = none ↔ (r.AuthMethod = "apikey" ∧ r.AuthToken = m.Token)) ∧
    ((m.Execute r s).err ≠ none → (m.Execute r s).err = some ⟨"unauthorized"⟩) ∧
    (m.Execute r s).request = r ∧ (m.Execute r s).state = s := by
  unfold AuthMiddleware.Execute
  split <;> simp_all

theorem AuthMiddleware_Execute_iff_witness :
    ((AuthMiddleware.Execute { Token := "secret" } wrongTokenRequest ()).err ≠ none) ∧
      (AuthMiddleware.Execute { Token := "secret" } wrongTokenRequest ()).err
        = some ⟨"unauthorized"⟩ :=
  ⟨by decide,
    (AuthMiddleware_Execute_iff { Token := "secret" } wrongTokenRequest ()).2.1 (by decide)⟩

/-- C5: on a dispatcher whose only middleware is `AuthMiddleware{Token: t}` and
whose registry maps `hello` to an action with handler `h`, a `hello` request
`r` gets the response of `h r` when it presents `apikey` and the token `t`, and
otherwise a response whose error message is `unauthorized`, `h` not being
called.  With no middleware and a handler that returns
`{Data: "Hello, world!", Code: 200}`, the request `{Action: "hello"}` gets
`Data` `Hello, world!` and a nil error. -/
theorem ProcessRequest_hello_with_auth (t : String) (n : Npc σ) (a : Action σ)
    (hm : n.middleware = [AuthMiddleware.toMiddleware { Token := t }])
    (ha : n.actions "hello" = some a) (r : Request) (hr : r.Action = "hello") (s : σ) :
    (r.AuthMethod = "apikey" ∧ r.AuthToken = t →
      (n.ProcessRequest r s).response = (a.Handler r s).response ∧
      (n.ProcessRequest r s).state = (a.Handler r s).state ∧
      (n.ProcessRequest r s).calls = [Call.step 0 r, Call.handler "hello" r]) ∧
    (¬ (r.AuthMethod = "apikey" ∧ r.AuthToken = t) →
      (n.ProcessRequest r s).response = { Data := "", Error := some ⟨"unauthorized"⟩, Code := 0 } ∧
      (n.ProcessRequest r s).state = s ∧
      (n.ProcessRequest r s).calls = [Call.step 0 r]) ∧
    (∀ (n0 : Npc σ) (a0 : Action σ), n0.middleware = [] → n0.actions "hello" = some a0 →
      (a0.Handler { Action := "hello" } s).response = { Data := "Hello, world!", Code := 200 } →
      (n0.ProcessRequest { Action := "hello" } s).response.Data = "Hello, world!" ∧
      (n0.ProcessRequest { Action := "hello" } s).response.Error = none) := by
  refine ⟨?_, ?_, ?_⟩
  · intro hauth
    simp [Npc.ProcessRequest, hm, runChain, AuthMiddleware.toMiddleware, AuthMiddleware.Execute,
      hauth, hr, ha]
  · intro hauth
    simp [Npc.ProcessRequest, hm, runChain, AuthMiddleware.toMiddleware, AuthMiddleware.Execute,
      hauth]
  · intro n0 a0 hm0 ha0 hh
    simp [Npc.ProcessRequest, hm0, runChain, ha0, hh]

theorem ProcessRequest_hello_with_auth_witness :
    authNpc.middleware = [AuthMiddleware.toMiddleware { Token := "secret" }] ∧
      authNpc.actions "hello" = some helloAction ∧
      (authNpc.ProcessRequest secretTokenRequest ()).response
        = { Data := "Hello, world!", Error := none, Code := 200 } ∧
      (authNpc.ProcessRequest wrongTokenRequest ()).response
        = { Data := "", Error := some ⟨"unauthorized"⟩, Code := 0 } :=
  ⟨rfl, rfl,
    ((ProcessRequest_hello_with_auth "secret" authNpc helloAction rfl rfl secretTokenRequest rfl
      ()).1 (by decide)).1,
    ((ProcessRequest_hello_with_auth "secret" authNpc helloAction rfl rfl wrongTokenRequest rfl
      ()).2.1 (by decide)).1⟩

/-- C6: `RegisterAction a` sets the registry entry under `a.Name` to `a`,
whatever was there, and leaves every other key and the middleware chain as they
were.  Afterwards a request whose chain passes with the name `a.Name` gets the
response of the handler of `a`, and a request that is dispatched under any
other name, or whose chain fails, gets the same response, state, log and calls
as before the registration. -/
theorem RegisterAction_replaces_one_entry (n : Npc σ) (a : Action σ) :
    (n.RegisterAction a).actions a.Name = some a ∧
    (∀ key, key ≠ a.Name → (n.RegisterAction a).actions key = n.actions key) ∧
    (n.RegisterAction a).middleware = n.middleware ∧
    (∀ r s r1 s1, n.dispatched r s = some (r1, s1) → r1.Action = a.Name →
      ((n.RegisterAction a).ProcessRequest r s).response = (a.Handler r1 s1).response ∧
      ((n.RegisterAction a).ProcessRequest r s).state = (a.Handler r1 s1).state ∧
      ∃ before, ((n.RegisterAction a).ProcessRequest r s).calls
        = before ++ [Call.handler a.Name r1]) ∧
    (∀ r s, (∀ r1 s1, n.dispatched r s = some (r1, s1) → r1.Action ≠ a.Name) →
      ((n.RegisterAction a).ProcessRequest r s).response = (n.ProcessRequest r s).response ∧
      ((n.RegisterAction a).ProcessRequest r s).state = (n.ProcessRequest r s).state ∧
      ((n.RegisterAction a).ProcessRequest r s).logs = (n.ProcessRequest r s).logs ∧
      ((n.RegisterAction a).ProcessRequest r s).calls = (n.ProcessRequest r s).calls) := by
  refine ⟨by simp [Npc.RegisterAction], ?_, rfl, ?_, ?_⟩
  · intro key hkey
    simp [Npc.RegisterAction, hkey]
  · intro r s r1 s1 hd hname
    unfold Npc.dispatched at hd
    unfold Npc.ProcessRequest
    simp only [Npc.RegisterAction]
    generalize runChain n.middleware 0 { request := r, state := s, logs := [], calls := [] }
      = res at hd ⊢
    obtain ⟨err, p⟩ := res
    cases err with
    | some e => simp at hd
    | none =>
      simp only [Option.some.injEq, Prod.mk.injEq] at hd
      obtain ⟨h1, h2⟩ := hd
      subst h1 h2
      simp [hname]
  · intro r s hother
    unfold Npc.dispatched at hother
    unfold Npc.ProcessRequest
    simp only [Npc.RegisterAction]
    generalize runChain n.middleware 0 { request := r, state := s, logs := [], calls := [] }
      = res at hother ⊢
    obtain ⟨err, p⟩ := res
    cases err with
    | some e => simp
    | none =>
      have hne : p.request.Action ≠ a.Name := hother p.request p.state rfl
      simp only [hne, if_false]
      cases n.actions p.request.Action <;> simp

theorem RegisterAction_replaces_one_entry_witness :
    (((NewNpc.RegisterAction firstHello).RegisterAction helloAction).ProcessRequest
        { Action := "hello" } ()).response
      = { Data := "Hello, world!", Error := none, Code := 200 } ∧
    (((NewNpc.RegisterAction firstHello).RegisterAction helloAction).ProcessRequest
        { Action := "Hello" } ()).response
      = ((NewNpc.RegisterAction firstHello).ProcessRequest { Action := "Hello" } ()).response :=
  ⟨((RegisterAction_replaces_one_entry (NewNpc.RegisterAction firstHello) helloAction).2.2.2.1
      { Action := "hello" } () { Action := "hello" } () rfl rfl).1,
    ((RegisterAction_replaces_one_entry (NewNpc.RegisterAction firstHello) helloAction).2.2.2.2
      { Action := "Hello" } ()
      (fun r1 s1 h => by
        cases h
        decide)).1⟩

/-! ## The audit step -/

/-- The error, request and state the loop ends with depend only on the request
and state it starts from, not on the position, the log or the call record. -/
theorem runChain_congr (ms : List (Middleware σ)) :
    ∀ (i j : Nat) (p q : Progress σ), p.request = q.request → p.state = q.state →
      (runChain ms i p).1 = (runChain ms j q).1 ∧
      (runChain ms i p).2.request = (runChain ms j q).2.request ∧
      (runChain ms i p).2.state = (runChain ms j q).2.state := by
  induction ms with
  | nil =>
    intro i j p q hr hs
    exact ⟨rfl, hr, hs⟩
  | cons m rest ih =>
    intro i j p q hr hs
    simp only [runChain, hr, hs]
    cases herr : (m.Execute q.request q.state).err with
    | some e => exact ⟨rfl, rfl, rfl⟩
    | none => exact ih _ _ _ _ rfl rfl

/-- An audit step anywhere in the chain leaves the error, request and state the
loop ends with as they are without it. -/
theorem runChain_skip_audit (m : AuditLogMiddleware) (front back : List (Middleware σ)) :
    ∀ (i : Nat) (p : Progress σ),
      (runChain (front ++ AuditLogMiddleware.toMiddleware m :: back) i p).1
        = (runChain (front ++ back) i p).1 ∧
      (runChain (front ++ AuditLogMiddleware.toMiddleware m :: back) i p).2.request
        = (runChain (front ++ back) i p).2.request ∧
      (runChain (front ++ AuditLogMiddleware.toMiddleware m :: back) i p).2.state
        = (runChain (front ++ back) i p).2.state := by
  induction front with
  | nil =>
    intro i p
    simp only [List.nil_append, runChain, AuditLogMiddleware.toMiddleware,
      AuditLogMiddleware.Execute]
    exact runChain_congr back _ _ _ _ rfl rfl
  | cons f rest ih =>
    intro i p
    simp only [List.cons_append, runChain]
    cases herr : (f.Execute p.request p.state).err with
    | some e => exact ⟨rfl, rfl, rfl⟩
    | none => exact ih _ _

/-- The response and final state of `ProcessRequest` are determined by the
registry and by the error, request and state the loop ends with. -/
theorem ProcessRequest_congr (n1 n2 : Npc σ) (r : Request) (s : σ)
    (hact : n1.actions = n2.actions)
    (h : (runChain n1.middleware 0 { request := r, state := s, logs := [], calls := [] }).1
          = (runChain n2.middleware 0 { request := r, state := s, logs := [], calls := [] }).1 ∧
        (runChain n1.middleware 0 { request := r, state := s, logs := [], calls := [] }).2.request
          = (runChain n2.middleware 0
              { request := r, state := s, logs := [], calls := [] }).2.request ∧
        (runChain n1.middleware 0 { request := r, state := s, logs := [], calls := [] }).2.state
          = (runChain n2.middleware 0
              { request := r, state := s, logs := [], calls := [] }).2.state) :
    (n1.ProcessRequest r s).response = (n2.ProcessRequest r s).response ∧
    (n1.ProcessRequest r s).state = (n2.ProcessRequest r s).state := by
  unfold Npc.ProcessRequest
  generalize runChain n1.middleware 0 { request := r, state := s, logs := [], calls := [] }
    = res1 at h ⊢
  generalize runChain n2.middleware 0 { request := r, state := s, logs := [], calls := [] }
    = res2 at h ⊢
  obtain ⟨e1, p1⟩ := res1
  obtain ⟨e2, p2⟩ := res2
  obtain ⟨he, hr, hs⟩ := h
  simp only at he hr hs
  subst he
  rw [hact]
  cases e1 with
  | some e => exact ⟨rfl, hs⟩
  | none =>
    simp only [hr, hs]
    cases n2.actions p2.request.Action <;> exact ⟨rfl, rfl⟩

/-- C7: `AuditLogMiddleware.Execute` returns no error and leaves the request
(and the closures' state) unchanged; so an `AuditLogMiddleware` inserted at any
position of any chain changes neither the response `ProcessRequest` returns nor
the state it leaves, for any registry and any request. -/
theorem AuditLogMiddleware_is_transparent (m : AuditLogMiddleware) :
    (∀ (r : Request) (s : σ),
      (m.Execute r s).err = none ∧ (m.Execute r s).request = r ∧ (m.Execute r s).state = s) ∧
    (∀ (actions : String → Option (Action σ)) (front back : List (Middleware σ))
        (r : Request) (s : σ),
      (Npc.ProcessRequest
          { actions := actions, middleware := front ++ AuditLogMiddleware.toMiddleware m :: back }
          r s).response
        = (Npc.ProcessRequest { actions := actions, middleware := front ++ back } r s).response ∧
      (Npc.ProcessRequest
          { actions := actions, middleware := front ++ AuditLogMiddleware.toMiddleware m :: back }
          r s).state
        = (Npc.ProcessRequest { actions := actions, middleware := front ++ back } r s).state) := by
  refine ⟨fun r s => ⟨rfl, rfl, rfl⟩, ?_⟩
  intro actions front back r s
  exact ProcessRequest_congr _ _ r s rfl (runChain_skip_audit m front back 0 _)

/-- C8: the dispatcher `main` builds runs the auth step, then the audit step.
A request the auth step rejects gets no log message at all and only the auth
step is called; a request the auth step accepts gets exactly one log message,
its audit line, written by the one call of the audit step. -/
theorem npcCore_audits_only_authorized (apiToken : String) (r : Request) (s : σ) :
    ((AuthMiddleware.Execute { Token := apiToken } r s).err ≠ none →
      ((npcCore apiToken).ProcessRequest r s).logs = [] ∧
      ((npcCore apiToken).ProcessRequest r s).calls = [Call.step 0 r]) ∧
    ((AuthMiddleware.Execute { Token := apiToken } r s).err = none →
      ((npcCore apiToken).ProcessRequest r s).logs = [auditLine r] ∧
      ((npcCore apiToken).ProcessRequest r s).calls.filter (fun c => c.stepIndex == some 1)
        = [Call.step 1 r]) := by
  constructor
  · intro hrej
    have hcond : ¬ (r.AuthMethod = "apikey" ∧ r.AuthToken = apiToken) := by
      intro hc
      exact hrej (by simp [AuthMiddleware.Execute, hc])
    simp [npcCore, NewNpc, Npc.Use, Npc.RegisterAction, Npc.ProcessRequest, runChain,
      AuthMiddleware.toMiddleware, AuthMiddleware.Execute, hcond]
  · intro hacc
    have hcond : r.AuthMethod = "apikey" ∧ r.AuthToken = apiToken := by
      by_contra hc
      simp [AuthMiddleware.Execute, hc] at hacc
    by_cases hname : r.Action = "hello" <;>
      simp [npcCore, NewNpc, Npc.Use, Npc.RegisterAction, Npc.ProcessRequest, runChain,
        AuthMiddleware.toMiddleware, AuthMiddleware.Execute, AuditLogMiddleware.toMiddleware,
        AuditLogMiddleware.Execute, helloAction, hcond, hname, Call.stepIndex]

theorem npcCore_audits_only_authorized_witness :
    ((npcCore "secret").ProcessRequest wrongTokenRequest ()).logs = [] ∧
      ((npcCore "secret").ProcessRequest secretTokenRequest ()).logs
        = ["AUDIT: Action=hello, Source=, Text=, User=, ChannelID="] :=
  ⟨((npcCore_audits_only_authorized "secret" wrongTokenRequest ()).1 (by decide)).1,
    ((npcCore_audits_only_authorized "secret" secretTokenRequest ()).2 (by decide)).1⟩

/-! ## The API adapter -/

/-- C9: when a handler is registered and a POST body decodes, `handleRequest`
answers the handler's response as follows: a non-nil error with the message
`unauthorized` gives status 401, any other non-nil error status 500, both with
the JSON object `{"error": message}` as body; a nil error gives status 200 with
`Data` as the encoded value.  `Code` plays no part. -/
theorem handleRequest_reply (ac : APIChannel σ) (handler : HandlerFunc σ)
    (hreg : ac.requestHandler = some handler) (req : HttpRequest)
    (hpost : req.Method = "POST") (requestData : List (String × JsonValue))
    (hbody : req.Body = some requestData) (s : σ) :
    (∀ e, (handler (newRequest requestData req.Authorization) s).response.Error = some e →
      (e.msg = "unauthorized" → (ac.handleRequest req s).reply.Status = 401) ∧
      (e.msg ≠ "unauthorized" → (ac.handleRequest req s).reply.Status = 500) ∧
      (ac.handleRequest req s).reply.Body = JsonValue.object [("error", JsonValue.str e.msg)]) ∧
    ((handler (newRequest requestData req.Authorization) s).response.Error = none →
      (ac.handleRequest req s).reply.Status = 200 ∧
      (ac.handleRequest req s).reply.Body
        = JsonValue.str (handler (newRequest requestData req.Authorization) s).response.Data) ∧
    (ac.handleRequest req s).reply.ContentType = "application/json" ∧
    (∀ code : Int,
      (writeResponse
          { (handler (newRequest requestData req.Authorization) s).response with Code := code }).1
        = (ac.handleRequest req s).reply) := by
  refine ⟨?_, ?_, ?_, ?_⟩
  · intro e he
    refine ⟨?_, ?_, ?_⟩
    · intro hmsg
      simp [APIChannel.handleRequest, hpost, hbody, hreg, writeResponse, he, hmsg]
    · intro hmsg
      simp [APIChannel.handleRequest, hpost, hbody, hreg, writeResponse, he, hmsg]
    · simp [APIChannel.handleRequest, hpost, hbody, hreg, writeResponse, he, errorBody]
  · intro he
    simp [APIChannel.handleRequest, hpost, hbody, hreg, writeResponse, he]
  · simp only [APIChannel.handleRequest, hpost, hbody, hreg, writeResponse]
    cases (handler (newRequest requestData req.Authorization) s).response.Error <;> simp
  · intro code
    simp only [APIChannel.handleRequest, hpost, hbody, hreg, writeResponse]
    cases (handler (newRequest requestData req.Authorization) s).response.Error <;> simp

theorem handleRequest_reply_witness :
    integrationChannel.requestHandler = some authNpc.requestHandler ∧
      wrongTokenPost.Method = "POST" ∧
      (integrationChannel.handleRequest wrongTokenPost ()).reply.Status = 401 ∧
      (integrationChannel.handleRequest wrongTokenPost ()).reply.Body
        = JsonValue.object [("error", JsonValue.str "unauthorized")] :=
  have h := (handleRequest_reply integrationChannel authNpc.requestHandler rfl wrongTokenPost rfl
    [("action", JsonValue.str "hello")] rfl ()).1 ⟨"unauthorized"⟩ rfl
  ⟨rfl, rfl, h.1 rfl, h.2.2⟩

/-! ## Empty tokens -/

/-- C11, as stated, fails: an `AuthMiddleware` configured with the empty token
accepts an `apikey` request whose `AuthToken` is empty. -/
theorem AuthMiddleware_empty_token_accepted :
    ({ AuthMethod := "apikey", AuthToken := "" } : Request).AuthToken = "" ∧
      (AuthMiddleware.Execute { Token := "" } { AuthMethod := "apikey", AuthToken := "" } ()).err
        = none := by
  decide

/-- C11, amended: a request whose `AuthToken` is empty is rejected with the
message `unauthorized` by every `AuthMiddleware`, unless the configured `Token`
is itself empty and the request's `AuthMethod` is `apikey`; in particular by
every `AuthMiddleware` with a non-empty `Token`. -/
theorem AuthMiddleware_rejects_empty_token (m : AuthMiddleware) (r : Request) (s : σ)
    (hr : r.AuthToken = "") (hm : m.Token ≠ "" ∨ r.AuthMethod ≠ "apikey") :
    (m.Execute r s).err = some ⟨"unauthorized"⟩ := by
  unfold AuthMiddleware.Execute
  have hcond : ¬ (r.AuthMethod = "apikey" ∧ r.AuthToken = m.Token) := by
    rintro ⟨hmethod, htoken⟩
    rcases hm with hm | hm
    · exact hm (by rw [← htoken, hr])
    · exact hm hmethod
  simp [hcond]

theorem AuthMiddleware_rejects_empty_token_witness :
    ({ AuthMethod := "apikey", AuthToken := "" } : Request).AuthToken = "" ∧
      (AuthMiddleware.Execute { Token := "test-token" }
          { AuthMethod := "apikey", AuthToken := "" } ()).err
        = some ⟨"unauthorized"⟩ :=
  ⟨rfl, AuthMiddleware_rejects_empty_token { Token := "test-token" }
    { AuthMethod := "apikey", AuthToken := "" } () rfl (Or.inl (by decide))⟩

/-! ## Registration of middleware -/

/-- C12: `Use m` puts `m` at the end of the chain and changes nothing else: the
new chain is the old one followed by `m`, one element longer, with every
earlier element at its old position, and the registry is the old one; `NewNpc`
starts from the empty chain and the empty registry. -/
theorem Use_appends (n : Npc σ) (m : Middleware σ) :
    (n.Use m).middleware = n.middleware ++ [m] ∧
    (n.Use m).middleware.length = n.middleware.length + 1 ∧
    (∀ i, i < n.middleware.length → (n.Use m).middleware[i]? = n.middleware[i]?) ∧
    (n.Use m).middleware[n.middleware.length]? = some m ∧
    (n.Use m).actions = n.actions ∧
    (NewNpc : Npc σ).middleware = [] ∧
    (∀ key, (NewNpc : Npc σ).actions key = none) := by
  refine ⟨rfl, by simp [Npc.Use], ?_, by simp [Npc.Use], rfl, rfl, fun _ => rfl⟩
  intro i hi
  simp [Npc.Use, List.getElem?_append_left hi]

/-! ## Request construction in the API adapter -/

/-- `HasPrefix s pre` holds exactly when `s` is `pre` followed by something. -/
theorem HasPrefix_iff (s pre : String) : HasPrefix s pre = true ↔ ∃ rest, s = pre ++ rest := by
  unfold HasPrefix
  rw [List.isPrefixOf_iff_prefix]
  constructor
  · rintro ⟨t, ht⟩
    refine ⟨String.mk t, ?_⟩
    apply String.ext
    simp [String.data_append, ht]
  · rintro ⟨rest, rfl⟩
    exact ⟨rest.data, by simp [String.data_append]⟩

/-- `TrimPrefix` removes a leading `pre`, once. -/
theorem TrimPrefix_append (pre rest : String) : TrimPrefix (pre ++ rest) pre = rest := by
  have h : HasPrefix (pre ++ rest) pre = true := (HasPrefix_iff _ _).mpr ⟨rest, rfl⟩
  unfold TrimPrefix
  rw [if_pos h]
  apply String.ext
  simp [String.data_append]

theorem stringField_of_str (data : List (String × JsonValue)) (key v : String)
    (h : data.lookup key = some (JsonValue.str v)) : stringField data key = some v := by
  simp [stringField, h]

theorem stringField_of_not_str (data : List (String × JsonValue)) (key : String)
    (h : ∀ v, data.lookup key ≠ some (JsonValue.str v)) : stringField data key = none := by
  unfold stringField
  split
  · next s hs => exact absurd hs (h s)
  · rfl

theorem stringArgs_mem (data rawArgs : List (String × JsonValue))
    (h : data.lookup "args" = some (JsonValue.object rawArgs)) (k v : String) :
    (k, v) ∈ stringArgs data ↔ (k, JsonValue.str v) ∈ rawArgs := by
  simp only [stringArgs, h, List.mem_filterMap]
  constructor
  · rintro ⟨⟨k0, v0⟩, hmem, hsome⟩
    cases v0 <;> simp at hsome
    obtain ⟨rfl, rfl⟩ := hsome
    exact hmem
  · intro hmem
    exact ⟨(k, JsonValue.str v), hmem, rfl⟩

theorem stringArgs_of_not_object (data : List (String × JsonValue))
    (h : ∀ rawArgs, data.lookup "args" ≠ some (JsonValue.object rawArgs)) :
    stringArgs data = [] := by
  unfold stringArgs
  split
  · next rawArgs hs => exact absurd hs (h rawArgs)
  · rfl

theorem stringArgs_lookup_of_absent (rawArgs : List (String × JsonValue)) (k : String)
    (hk : k ∉ rawArgs.map Prod.fst) :
    (rawArgs.filterMap fun kv =>
      match kv.2 with
      | JsonValue.str strVal => some (kv.1, strVal)
      | _ => none).lookup k = none := by
  induction rawArgs with
  | nil => rfl
  | cons kv rest ih =>
    obtain ⟨k0, v0⟩ := kv
    simp only [List.map_cons, List.mem_cons, not_or] at hk
    obtain ⟨hne, hrest⟩ := hk
    have hb : (k == k0) = false := beq_eq_false_iff_ne.mpr hne
    cases v0 <;> simp [List.filterMap_cons, List.lookup_cons, ih hrest, hb]

theorem stringArgs_lookup (data rawArgs : List (String × JsonValue))
    (h : data.lookup "args" = some (JsonValue.object rawArgs))
    (hn : (rawArgs.map Prod.fst).Nodup) (k : String) :
    (stringArgs data).lookup k
      = match rawArgs.lookup k with
        | some (JsonValue.str v) => some v
        | _ => none := by
  simp only [stringArgs, h]
  clear h
  induction rawArgs with
  | nil => rfl
  | cons kv rest ih =>
    obtain ⟨k0, v0⟩ := kv
    simp only [List.map_cons, List.nodup_cons] at hn
    obtain ⟨hk0, hrest⟩ := hn
    by_cases hk : k = k0
    · subst hk
      cases v0 <;>
        simp [List.filterMap_cons, List.lookup_cons, stringArgs_lookup_of_absent rest k hk0]
    · have hb : (k == k0) = false := beq_eq_false_iff_ne.mpr hk
      cases v0 <;> simp [List.filterMap_cons, List.lookup_cons, hb, ih hrest]

/-- C13: for a POST whose body decodes to the object `b` and whose
`Authorization` header is `h`, `handleRequest` calls the registered handler
once, with a request `q` such that: `Action`, `User` and `ChannelID` are the
string values of `action`, `user` and `channel_id` in `b`, else empty; `Source`
is `API`; `AuthMethod` is `apikey`; `AuthToken` is `h` without one leading
`Bearer `, or `h` itself; `Text` is the string value of `message`, else that of
`action`, else empty; `Args` holds exactly the string-valued entries of the
object `args` of `b`, and is empty without such an object; `RawData` is `b`. -/
theorem handleRequest_builds_request (b : List (String × JsonValue)) (h : String) :
    ∃ q : Request,
      (∀ (τ : Type) (ac : APIChannel τ) (handler : HandlerFunc τ) (req : HttpRequest) (s : τ),
        ac.requestHandler = some handler → req.Method = "POST" → req.Body = some b →
        req.Authorization = h →
        (ac.handleRequest req s).state = (handler q s).state ∧
        (ac.handleRequest req s).reply = (writeResponse (handler q s).response).1) ∧
      (∀ (port : String) (seen : List Request),
        (APIChannel.handleRequest { port := port, requestHandler := some recordingHandler }
          { Method := "POST", Authorization := h, Body := some b } seen).state
          = seen ++ [q]) ∧
      (∀ a, b.lookup "action" = some (JsonValue.str a) → q.Action = a) ∧
      ((∀ a, b.lookup "action" ≠ some (JsonValue.str a)) → q.Action = "") ∧
      q.Source = "API" ∧
      q.AuthMethod = "apikey" ∧
      (∀ rest, h = "Bearer " ++ rest → q.AuthToken = rest) ∧
      ((∀ rest, h ≠ "Bearer " ++ rest) → q.AuthToken = h) ∧
      (∀ t, b.lookup "message" = some (JsonValue.str t) → q.Text = t) ∧
      ((∀ t, b.lookup "message" ≠ some (JsonValue.str t)) →
        ∀ a, b.lookup "action" = some (JsonValue.str a) → q.Text = a) ∧
      ((∀ t, b.lookup "message" ≠ some (JsonValue.str t)) →
        (∀ a, b.lookup "action" ≠ some (JsonValue.str a)) → q.Text = "") ∧
      (∀ u, b.lookup "user" = some (JsonValue.str u) → q.User = u) ∧
      ((∀ u, b.lookup "user" ≠ some (JsonValue.str u)) → q.User = "") ∧
      (∀ c, b.lookup "channel_id" = some (JsonValue.str c) → q.ChannelID = c) ∧
      ((∀ c, b.lookup "channel_id" ≠ some (JsonValue.str c)) → q.ChannelID = "") ∧
      (∀ rawArgs, b.lookup "args" = some (JsonValue.object rawArgs) →
        (∀ k v, (k, v) ∈ q.Args ↔ (k, JsonValue.str v) ∈ rawArgs) ∧
        ((rawArgs.map Prod.fst).Nodup → ∀ k,
          q.Args.lookup k
            = match rawArgs.lookup k with
              | some (JsonValue.str v) => some v
              | _ => none)) ∧
      ((∀ rawArgs, b.lookup "args" ≠ some (JsonValue.object rawArgs)) → q.Args = []) ∧
      q.RawData = RawData.json b := by
  refine ⟨newRequest b h, ?_, ?_, ?_, ?_, rfl, rfl, ?_, ?_, ?_, ?_, ?_, ?_, ?_, ?_, ?_, ?_, ?_,
    rfl⟩
  · intro τ ac handler req s hreg hpost hbody hauth
    subst hauth
    simp [APIChannel.handleRequest, hpost, hbody, hreg]
  · intro port seen
    simp [APIChannel.handleRequest, recordingHandler]
  · intro a ha
    simp [newRequest, stringField_of_str b "action" a ha]
  · intro ha
    simp [newRequest, stringField_of_not_str b "action" ha]
  · intro rest hrest
    subst hrest
    have hp : HasPrefix ("Bearer " ++ rest) "Bearer " = true := (HasPrefix_iff _ _).mpr ⟨rest, rfl⟩
    simp only [newRequest, hp, if_true, TrimPrefix_append]
  · intro hrest
    have hp : HasPrefix h "Bearer " = false := by
      cases hh : HasPrefix h "Bearer " with
      | false => rfl
      | true =>
        obtain ⟨rest, hr⟩ := (HasPrefix_iff _ _).mp hh
        exact absurd hr (hrest rest)
    simp [newRequest, hp]
  · intro t ht
    simp [newRequest, stringField_of_str b "message" t ht]
  · intro hm a ha
    simp [newRequest, stringField_of_not_str b "message" hm, stringField_of_str b "action" a ha]
  · intro hm ha
    simp [newRequest, stringField_of_not_str b "message" hm,
      stringField_of_not_str b "action" ha]
  · intro u hu
    simp [newRequest, stringField_of_str b "user" u hu]
  · intro hu
    simp [newRequest, stringField_of_not_str b "user" hu]
  · intro c hc
    simp [newRequest, stringField_of_str b "channel_id" c hc]
  · intro hc
    simp [newRequest, stringField_of_not_str b "channel_id" hc]
  · intro rawArgs hargs
    exact ⟨fun k v => stringArgs_mem b rawArgs hargs k v,
      fun hn k => stringArgs_lookup b rawArgs hargs hn k⟩
  · intro hargs
    exact stringArgs_of_not_object b hargs

/-! ## The audit line -/

/-- C15: `AuditLogMiddleware.Execute` writes exactly one log message, the text
`AUDIT: Action=…, Source=…, Text=…, User=…, ChannelID=…` with the request's
`Action`, `Source`, `Text`, `User` and `ChannelID` inserted as they are, in that
order; no other field of the request has any part in it. -/
theorem AuditLogMiddleware_logs_one_line (m : AuditLogMiddleware) (r : Request) (s : σ) :
    (m.Execute r s).logs
      = [String.join ["AUDIT: Action=", r.Action, ", Source=", r.Source, ", Text=", r.Text,
          ", User=", r.User, ", ChannelID=", r.ChannelID]] ∧
    (m.Execute r s).logs.length = 1 ∧
    (∀ (authMethod authToken : String) (args : List (String × String)) (raw : RawData),
      (m.Execute { r with AuthMethod := authMethod, AuthToken := authToken, Args := args,
                          RawData := raw } s).logs
        = (m.Execute r s).logs) := by
  refine ⟨?_, rfl, fun _ _ _ _ => rfl⟩
  simp [AuditLogMiddleware.Execute, auditLine, String.join, String.append_assoc]

theorem AuditLogMiddleware_logs_one_line_witness :
    (AuditLogMiddleware.Execute {} auditTestRequest ()).logs
      = ["AUDIT: Action=test_action, Source=test_source, Text=test_text, User=test_user, "
          ++ "ChannelID=test_channel"] :=
  (AuditLogMiddleware_logs_one_line {} auditTestRequest ()).1.trans (by decide)

/-! ## Unknown actions through the API adapter -/

/-- The unknown-action message never reads `unauthorized`. -/
theorem not_found_ne_unauthorized (X : String) :
    "action " ++ X ++ " not found" ≠ "unauthorized" := by
  intro h
  have hd := congrArg String.data h
  simp [String.data_append] at hd

/-- C16: the message `action X not found` differs from `unauthorized` for every
`X`; so when the API adapter is wired to `ProcessRequest`, a POST whose request
passes the middleware chain and is dispatched under a name that is not
registered is answered with status 500, not 401, and with that message. -/
theorem handleRequest_unknown_action_500 (n : Npc σ) (ac : APIChannel σ)
    (hreg : ac.requestHandler = some n.requestHandler) (req : HttpRequest)
    (hpost : req.Method = "POST") (b : List (String × JsonValue)) (hbody : req.Body = some b)
    (s : σ) (r1 : Request) (s1 : σ)
    (hpass : n.dispatched (newRequest b req.Authorization) s = some (r1, s1))
    (hnone : n.actions r1.Action = none) :
    (∀ X : String, "action " ++ X ++ " not found" ≠ "unauthorized") ∧
    (ac.handleRequest req s).reply.Status = 500 ∧
    (ac.handleRequest req s).reply.Status ≠ 401 ∧
    (ac.handleRequest req s).reply.Body
      = JsonValue.object [("error", JsonValue.str ("action " ++ r1.Action ++ " not found"))] := by
  have hresp : (n.ProcessRequest (newRequest b req.Authorization) s).response
      = { Error := some ⟨"action " ++ r1.Action ++ " not found"⟩ } := by
    unfold Npc.dispatched at hpass
    unfold Npc.ProcessRequest
    generalize runChain n.middleware 0
      { request := newRequest b req.Authorization, state := s, logs := [], calls := [] }
      = res at hpass ⊢
    obtain ⟨err, p⟩ := res
    cases err with
    | some e => simp at hpass
    | none =>
      simp only [Option.some.injEq, Prod.mk.injEq] at hpass
      obtain ⟨h1, h2⟩ := hpass
      subst h1 h2
      simp [hnone]
  have hstatus : (ac.handleRequest req s).reply.Status = 500 := by
    simp [APIChannel.handleRequest, hpost, hbody, hreg, Npc.requestHandler, hresp, writeResponse,
      not_found_ne_unauthorized]
  refine ⟨not_found_ne_unauthorized, hstatus, ?_, ?_⟩
  · rw [hstatus]
    decide
  · simp [APIChannel.handleRequest, hpost, hbody, hreg, Npc.requestHandler, hresp, writeResponse,
      errorBody]

theorem handleRequest_unknown_action_500_witness :
    authNpc.actions "missing" = none ∧
      (integrationChannel.handleRequest missingActionPost ()).reply.Status = 500 ∧
      (integrationChannel.handleRequest missingActionPost ()).reply.Body
        = JsonValue.object [("error", JsonValue.str "action missing not found")] :=
  have h := handleRequest_unknown_action_500 authNpc integrationChannel rfl missingActionPost rfl
    [("action", JsonValue.str "missing")] rfl ()
    (newRequest [("action", JsonValue.str "missing")] "Bearer secret") () rfl rfl
  ⟨rfl, h.2.1, h.2.2.2⟩

/-! ## The dispatcher's own state -/

/-- With a receiver that no callback can reach, `ProcessRequestAt` is
`Npc.ProcessRequest`. -/
theorem ProcessRequestAt_const (n : Npc σ) (r : Request) (s : σ) :
    ProcessRequestAt (fun _ => n) r s = n.ProcessRequest r s :=
  rfl

/-- A chain whose steps leave the dispatcher alone leaves it alone as a whole. -/
theorem runChain_preserves_deref (deref : σ → Npc σ) (ms : List (Middleware σ))
    (hms : ∀ m ∈ ms, ∀ q t, deref (m.Execute q t).state = deref t) :
    ∀ (i : Nat) (p : Progress σ), deref (runChain ms i p).2.state = deref p.state := by
  induction ms with
  | nil =>
    intro i p
    rfl
  | cons m rest ih =>
    intro i p
    have hm := hms m (List.mem_cons_self m rest) p.request p.state
    have hrest : ∀ m' ∈ rest, ∀ q t, deref (m'.Execute q t).state = deref t :=
      fun m' hm' => hms m' (List.mem_cons_of_mem m hm')
    simp only [runChain]
    cases herr : (m.Execute p.request p.state).err with
    | some e => exact hm
    | none =>
      simp only
      rw [ih hrest]
      exact hm

/-- C10, as stated, fails: a handler that holds the `*Npc` and registers an
action on it during the call leaves a registry that has a name it did not have
before the call. -/
theorem ProcessRequestAt_handler_registers :
    selfRegisteringNpc true = (selfRegisteringNpc false).RegisterAction extraAction ∧
      ((selfRegisteringNpc false).actions "extra").isSome = false ∧
      ((selfRegisteringNpc
          (ProcessRequestAt selfRegisteringNpc { Action := "hello" } false).state).actions
        "extra").isSome = true :=
  ⟨rfl, rfl, rfl⟩

/-- C10, amended: `ProcessRequest` itself writes neither the registry nor the
middleware list.  If no middleware and no handler of the dispatcher changes the
dispatcher when it is called, then the registry and the middleware list after
the call are those before it, whether the call ends in a middleware failure, an
unknown-action error or a handler's response. -/
theorem ProcessRequestAt_preserves_npc (deref : σ → Npc σ) (r : Request) (s : σ)
    (hmw : ∀ m ∈ (deref s).middleware, ∀ q t, deref (m.Execute q t).state = deref t)
    (hh : ∀ name a, (deref s).actions name = some a →
      ∀ q t, deref (a.Handler q t).state = deref t) :
    deref (ProcessRequestAt deref r s).state = deref s ∧
    (deref (ProcessRequestAt deref r s).state).actions = (deref s).actions ∧
    (deref (ProcessRequestAt deref r s).state).middleware = (deref s).middleware := by
  have h : deref (ProcessRequestAt deref r s).state = deref s := by
    have hchain := runChain_preserves_deref deref (deref s).middleware hmw 0
      { request := r, state := s, logs := [], calls := [] }
    unfold ProcessRequestAt
    generalize runChain (deref s).middleware 0
      { request := r, state := s, logs := [], calls := [] } = res at hchain ⊢
    obtain ⟨err, p⟩ := res
    simp only at hchain
    cases err with
    | some e => exact hchain
    | none =>
      simp only
      cases hact : (deref p.state).actions p.request.Action with
      | none => exact hchain
      | some a =>
        simp only
        rw [hchain] at hact
        rw [hh p.request.Action a hact p.request p.state]
        exact hchain
  exact ⟨h, by rw [h], by rw [h]⟩

theorem ProcessRequestAt_preserves_npc_witness :
    (ProcessRequestAt heldNpc secretTokenRequest true).response
        = { Data := "Hello, world!", Error := none, Code := 200 } ∧
      heldNpc (ProcessRequestAt heldNpc secretTokenRequest true).state = heldNpc true :=
  ⟨rfl,
    (ProcessRequestAt_preserves_npc heldNpc secretTokenRequest true
      (fun m hm q t => by
        have hm' : m = AuthMiddleware.toMiddleware { Token := "secret" } := by
          simpa [heldNpc, Npc.RegisterAction, Npc.Use, NewNpc] using hm
        subst hm'
        simp only [AuthMiddleware.toMiddleware, AuthMiddleware.Execute]
        split <;> rfl)
      (fun name a ha q t => by
        simp only [heldNpc, Npc.RegisterAction, Npc.Use, NewNpc, if_true] at ha
        by_cases h1 : name = extraAction.Name
        · rw [if_pos h1] at ha
          cases ha
          rfl
        · rw [if_neg h1] at ha
          by_cases h2 : name = (helloAction : Action Bool).Name
          · rw [if_pos h2] at ha
            cases ha
            rfl
          · rw [if_neg h2] at ha
            cases ha)).1⟩

/-! ## Request construction in the Slack adapter -/

/-- C14: the `hello` message event held by pointer, as slack-go delivers it,
fails the type assertion of `handleEvent` and reaches the handler as `unknown`
with `AuthMethod` `none` and empty `User`, `ChannelID`, `Text` and `Args`; the
same event held by value, as the tests build it, reaches the handler as `hello`
with `slack_user` and the fields of the message; and with a nil `Request` the
call panics before any handler is called. -/
theorem handleEvent_pointer_message_unknown :
    (SlackChannel.handleEvent { requestHandler := some recordingHandler }
        helloPointerEvent []).map (fun h => h.state)
      = some [{ Action := "unknown", User := "", ChannelID := "", Text := "", Source := "Slack",
                AuthMethod := "none", AuthToken := "", Args := [],
                RawData := RawData.slackMessagePointer helloMessage }] ∧
    (SlackChannel.handleEvent { requestHandler := some recordingHandler }
        helloValueEvent []).map (fun h => h.state)
      = some [{ Action := "hello", User := "U12345", ChannelID := "C12345", Text := "hello",
                Source := "Slack", AuthMethod := "slack_user", AuthToken := "U12345",
                Args := [("channel_type", "channel")],
                RawData := RawData.slackMessage helloMessage }] ∧
    (SlackChannel.handleEvent { requestHandler := some recordingHandler }
        helloNilRequestEvent []).isNone = true :=
  ⟨rfl, rfl, rfl⟩

end NPC2
